import Mathlib

/-!
Verification of the two data paths of the jwk terraform provider against its
specification.

The development shallowly embeds the two `Read` implementations of the
repository:

* `JwkToPemDataSource.Read` (framework converter, `provider/jwk_to_pem_data_source.go`)
  and the legacy SDK converter `datasourceJwkToPemRead`, both of which run
  go-jose `JSONWebKey.UnmarshalJSON`, then `x509.MarshalPKIXPublicKey`,
  then `pem.Encode`;
* `JwkFromK8sDataSource.Read` (the mTLS JWKS fetcher).

Modelling conventions:

* JSON texts are represented by their parse result: an `Option Json` where
  `none` stands for a byte sequence that is not valid JSON and `some j` for a
  text whose parse tree is `j`.  `Json.obj` keeps its fields as an ordered
  association list, so field order of the original text is part of the value.
  A `Json.num` keeps its source literal, since no code path reads a number.
* Machine bytes are `Nat`s below 256 in big-endian lists; big integers are
  `Nat`.
* The external library functions on the converter path (the go-jose
  `UnmarshalJSON` dispatch, `x509.MarshalPKIXPublicKey`, `pem.Encode`,
  `base64`, `strings.TrimSpace`, `strings.TrimRight`) are embedded as
  executable functions mirroring their observable behaviour.  Simplifications
  from the Go originals, each noted at the definition: certificate-related
  JWK members (`x5c` ...) and other auxiliary members (`use`, `alg` ...) are
  ignored rather than type-checked, duplicate JSON object fields resolve to
  the last well-typed occurrence, arithmetic validation of RSA private keys
  and the on-curve check for EC points are omitted.  None of the claims
  depend on these corners.
* The outside world of the fetcher (TLS key-pair construction, CA pool loading,
  the HTTP round trip) is an explicit environment `FetchEnv` recording the
  outcome of each external step; `FetchResult.requestedURL` records the URL
  of the HTTP GET, `none` when no request was issued.
* Terraform diagnostics are pairs of summary and detail; a `Read` result is
  the final diagnostics list together with the state that was set (`none`
  when the call returned before `resp.State.Set`).
-/

/-! ## JSON values -/

/-- Parse tree of a JSON text.  Objects keep their fields in source order. -/
inductive Json where
  | null
  | bool (b : Bool)
  | num (lit : String)
  | str (s : String)
  | arr (elems : List Json)
  | obj (fields : List (String × Json))

/-- Hex digit characters used by `encoding/json` escapes. -/
def hexDigit (n : Nat) : Char :=
  if n < 10 then Char.ofNat (48 + n) else Char.ofNat (97 + n - 10)

/-- One character of a JSON string as `encoding/json` emits it: quote,
backslash and ASCII control characters are escaped, and so are `<`, `>`, `&`
(the HTML escaping of the encoder, on by default and used by `json.Marshal`). -/
def escChar (c : Char) : List Char :=
  if c = '"' then ['\\', '"']
  else if c = '\\' then ['\\', '\\']
  else if c = '\n' then ['\\', 'n']
  else if c = '\r' then ['\\', 'r']
  else if c = '\t' then ['\\', 't']
  else if c = '<' || c = '>' || c = '&' || c.toNat < 32 then
    ['\\', 'u', '0', '0', hexDigit (c.toNat / 16), hexDigit (c.toNat % 16)]
  else [c]

/-- A JSON string literal for `s`, escaped as `encoding/json` does. -/
def jsonQuote (s : String) : String := ⟨'"' :: (s.data.map escChar).flatten ++ ['"']⟩

mutual
/-- Compact serialization of a JSON value, as `json.Marshal` produces for a
`json.RawMessage` holding this tree: no whitespace, object fields in their
original order, values unchanged. -/
def Json.compact : Json → String
  | Json.null => "null"
  | Json.bool b => if b then "true" else "false"
  | Json.num lit => lit
  | Json.str s => jsonQuote s
  | Json.arr es => "[" ++ compactElems es ++ "]"
  | Json.obj fs => "\x7b" ++ compactFields fs ++ "\x7d"

/-- Comma-separated compact serialization of array elements, in order. -/
def compactElems : List Json → String
  | [] => ""
  | [e] => Json.compact e
  | e :: es => Json.compact e ++ "," ++ compactElems es

/-- Comma-separated compact serialization of object fields, in order. -/
def compactFields : List (String × Json) → String
  | [] => ""
  | [(k, v)] => jsonQuote k ++ ":" ++ Json.compact v
  | (k, v) :: fs => jsonQuote k ++ ":" ++ Json.compact v ++ "," ++ compactFields fs
end

/-- The last value bound to `name` in the field list of an object, mirroring
`encoding/json`, where a repeated field overwrites the earlier value. -/
def lookupLast (name : String) : List (String × Json) → Option Json
  | [] => none
  | (k, v) :: rest =>
    match lookupLast name rest with
    | some r => some r
    | none => if k = name then some v else none

/-! ## base64 -/

/-- Value of one character of the base64url alphabet (RFC 4648 §5), as used
by `base64.RawURLEncoding`; `none` for a character outside the alphabet. -/
def b64urlVal (c : Char) : Option Nat :=
  let n := c.toNat
  if 65 ≤ n ∧ n ≤ 90 then some (n - 65)
  else if 97 ≤ n ∧ n ≤ 122 then some (n - 97 + 26)
  else if 48 ≤ n ∧ n ≤ 57 then some (n - 48 + 52)
  else if c = '-' then some 62
  else if c = '_' then some 63
  else none

/-- Unpadded base64url decoding (`base64.RawURLEncoding.DecodeString`), the
decoder behind the go-jose `byteBuffer` fields: groups of four characters give
three bytes, a trailing group of two or three gives one or two bytes, and a
trailing group of one character or any character outside the alphabet is an
error.  Like the non-strict Go decoder it ignores unused trailing bits. -/
def b64urlDecodeChars : List Char → Option (List Nat)
  | [] => some []
  | [_] => none
  | [a, b] => do
    let va ← b64urlVal a
    let vb ← b64urlVal b
    some [va * 4 + vb / 16]
  | [a, b, c] => do
    let va ← b64urlVal a
    let vb ← b64urlVal b
    let vc ← b64urlVal c
    some [va * 4 + vb / 16, vb % 16 * 16 + vc / 4]
  | a :: b :: c :: d :: rest => do
    let va ← b64urlVal a
    let vb ← b64urlVal b
    let vc ← b64urlVal c
    let vd ← b64urlVal d
    let tail ← b64urlDecodeChars rest
    some ((va * 4 + vb / 16) :: (vb % 16 * 16 + vc / 4) :: (vc % 4 * 64 + vd) :: tail)

/-- base64url decoding of a string. -/
def b64urlDecode (s : String) : Option (List Nat) := b64urlDecodeChars s.data

/-- Character `n` (< 64) of the standard base64 alphabet (RFC 4648 §4), the
alphabet `pem.Encode` uses for the body of a PEM block. -/
def b64StdChar (n : Nat) : Char :=
  if n < 26 then Char.ofNat (65 + n)
  else if n < 52 then Char.ofNat (97 + n - 26)
  else if n < 62 then Char.ofNat (48 + n - 52)
  else if n = 62 then '+' else '/'

/-- Standard padded base64 encoding (`base64.StdEncoding`) of a byte list. -/
def base64Chars : List Nat → List Char
  | [] => []
  | [a] => [b64StdChar (a / 4 % 64), b64StdChar (a % 4 * 16), '=', '=']
  | [a, b] => [b64StdChar (a / 4 % 64), b64StdChar (a % 4 * 16 + b / 16), b64StdChar (b % 16 * 4), '=']
  | a :: b :: c :: rest =>
    b64StdChar (a / 4 % 64) :: b64StdChar (a % 4 * 16 + b / 16) ::
      b64StdChar (b % 16 * 4 + c / 64) :: b64StdChar (c % 64) :: base64Chars rest

/-! ## DER (PKIX SubjectPublicKeyInfo), PEM, and string trimming -/

/-- Big-endian bytes of `n` with no leading zero, computed with a structural
fuel argument (`fuel ≥ n` suffices); `big.Int.Bytes` of a `Nat`. -/
def natBytesBEAux : Nat → Nat → List Nat
  | 0, _ => []
  | _ + 1, 0 => []
  | fuel + 1, n + 1 => natBytesBEAux fuel ((n + 1) / 256) ++ [(n + 1) % 256]

/-- Big-endian minimal byte representation of a natural number. -/
def natBytesBE (n : Nat) : List Nat := natBytesBEAux n n

/-- DER length octets: short form below 128, long form above. -/
def derLen (n : Nat) : List Nat :=
  if n < 128 then [n] else (128 + (natBytesBE n).length) :: natBytesBE n

/-- A DER TLV: tag, length octets, content. -/
def derWrap (tag : Nat) (content : List Nat) : List Nat :=
  tag :: derLen content.length ++ content

/-- DER INTEGER of a non-negative integer: minimal big-endian content with a
leading zero octet when the high bit is set. -/
def derInt (n : Nat) : List Nat :=
  let bs := natBytesBE n
  let bs := if bs = [] then [0] else bs
  derWrap 2 (if 128 ≤ bs.headD 0 then 0 :: bs else bs)

/-- DER BIT STRING with zero unused bits. -/
def derBitString (data : List Nat) : List Nat := derWrap 3 (0 :: data)

/-- OID rsaEncryption 1.2.840.113549.1.1.1. -/
def oidRSAEnc : List Nat := derWrap 6 [42, 134, 72, 134, 247, 13, 1, 1, 1]

/-- DER NULL. -/
def derNull : List Nat := [5, 0]

/-- PKIX SubjectPublicKeyInfo for an RSA public key, as
`x509.MarshalPKIXPublicKey` produces: AlgorithmIdentifier rsaEncryption with
NULL parameters, and a BIT STRING holding the PKCS#1 RSAPublicKey sequence. -/
def spkiRSA (n e : Nat) : List Nat :=
  derWrap 48 (derWrap 48 (oidRSAEnc ++ derNull) ++
    derBitString (derWrap 48 (derInt n ++ derInt e)))

/-- The NIST curves go-jose accepts for `"kty":"EC"`. -/
inductive Crv where
  | p256
  | p384
  | p521
deriving DecidableEq

/-- Byte size of a coordinate of the curve. -/
def crvSize : Crv → Nat
  | .p256 => 32
  | .p384 => 48
  | .p521 => 66

/-- Curve of a JWK `crv` member. -/
def crvOf : String → Option Crv
  | "P-256" => some .p256
  | "P-384" => some .p384
  | "P-521" => some .p521
  | _ => none

/-- DER content octets of the named-curve OID of the curve. -/
def crvOid : Crv → List Nat
  | .p256 => derWrap 6 [42, 134, 72, 206, 61, 3, 1, 7]
  | .p384 => derWrap 6 [43, 129, 4, 0, 34]
  | .p521 => derWrap 6 [43, 129, 4, 0, 35]

/-- OID id-ecPublicKey 1.2.840.10045.2.1. -/
def oidEcPub : List Nat := derWrap 6 [42, 134, 72, 206, 61, 2, 1]

/-- PKIX SubjectPublicKeyInfo for an EC public key: id-ecPublicKey with a
named-curve parameter and the uncompressed point `04 || x || y` (the
coordinates already have the fixed width of the curve here, as go-jose enforced
it at decode time). -/
def spkiEC (c : Crv) (x y : List Nat) : List Nat :=
  derWrap 48 (derWrap 48 (oidEcPub ++ crvOid c) ++ derBitString (4 :: (x ++ y)))

/-- PKIX SubjectPublicKeyInfo for an Ed25519 public key: OID 1.3.101.112 with
absent parameters and the raw 32 key bytes in the BIT STRING. -/
def spkiEd (x : List Nat) : List Nat :=
  derWrap 48 (derWrap 48 (derWrap 6 [43, 101, 112]) ++ derBitString x)

/-- The base64 body of a PEM block broken into lines of 64 characters, each
line (the last included) followed by a newline, as `pem.Encode` writes it.
The counter is the room left on the current line. -/
def pemLinesAux : List Char → Nat → List Char
  | [], _ => []
  | [c], _ => [c, '\n']
  | c :: cs, k => if k ≤ 1 then c :: '\n' :: pemLinesAux cs 64 else c :: pemLinesAux cs (k - 1)

/-- Line-broken base64 body of a PEM block. -/
def pemLines (cs : List Char) : List Char := pemLinesAux cs 64

/-- The character stream `pem.Encode` writes for a block of type `label`:
begin marker line, line-wrapped base64 of the DER bytes, end marker line. -/
def pemEncodeChars (label : String) (der : List Nat) : List Char :=
  "-----BEGIN ".data ++ (label.data ++ ("-----\n".data ++
    (pemLines (base64Chars der) ++
      ("-----END ".data ++ (label.data ++ "-----\n".data)))))

/-- `pem.Encode` output as a string. -/
def pemEncode (label : String) (der : List Nat) : String := ⟨pemEncodeChars label der⟩

/-- ASCII whitespace recognized by `strings.TrimSpace` (the PEM text only
ever carries a newline, so the ASCII fragment of `unicode.IsSpace` suffices). -/
def isSpaceChar (c : Char) : Bool :=
  c = ' ' || c = '\t' || c = '\n' || c = '\r' || c = '\x0b' || c = '\x0c'

/-- Leading and trailing whitespace removed from a character list. -/
def trimChars (cs : List Char) : List Char :=
  ((cs.dropWhile isSpaceChar).reverse.dropWhile isSpaceChar).reverse

/-- `strings.TrimSpace`. -/
def strTrimSpace (s : String) : String := ⟨trimChars s.data⟩

/-- `strings.TrimRight s "/"`: every trailing `'/'` removed. -/
def trimRightSlash (s : String) : String :=
  ⟨(s.data.reverse.dropWhile (fun c => c = '/')).reverse⟩

/-! ## go-jose `JSONWebKey.UnmarshalJSON` -/

/-- An apostrophe, as it appears inside several Go error messages. -/
def apos : String := String.singleton (Char.ofNat 39)

/-- The members of the go-jose `rawJSONWebKey` that drive its key dispatch:
`kty`, `kid`, `crv` as strings and the base64url `byteBuffer` members.
Certificate members (`x5c`, `x5t`, ...) and other auxiliary members
(`use`, `alg`, `key_ops`) are not modelled; no code path here reads them. -/
structure RawJWK where
  kty : Option String
  kid : Option String
  crv : Option String
  n : Option (List Nat)
  e : Option (List Nat)
  d : Option (List Nat)
  k : Option (List Nat)
  x : Option (List Nat)
  y : Option (List Nat)
  p : Option (List Nat)
  q : Option (List Nat)

/-- A string member of the raw JWK object: absent or JSON `null` decode to
the zero value (reported as `none`), a string decodes to itself, any other
JSON type is an `encoding/json` unmarshal error. -/
def getStr? (fs : List (String × Json)) (name : String) : Except String (Option String) :=
  match lookupLast name fs with
  | none => Except.ok none
  | some Json.null => Except.ok none
  | some (Json.str s) => Except.ok (some s)
  | some _ => Except.error ("json: cannot unmarshal value into Go field " ++ name ++ " of type string")

/-- A `byteBuffer` member of the raw JWK object: absent, JSON `null` and the
empty string decode to a nil buffer (`none`, since the go-jose `byteBuffer`
treats `""` as absent), a string must be valid unpadded base64url, and any
other JSON type is an unmarshal error. -/
def getBuf? (fs : List (String × Json)) (name : String) : Except String (Option (List Nat)) :=
  match lookupLast name fs with
  | none => Except.ok none
  | some Json.null => Except.ok none
  | some (Json.str s) =>
    if s = "" then Except.ok none
    else
      match b64urlDecode s with
      | some bytes => Except.ok (some bytes)
      | none => Except.error ("go-jose/go-jose: invalid base64url value for field " ++ name)
  | some _ => Except.error ("json: cannot unmarshal value into Go field " ++ name ++ " of type byteBuffer")

/-- `json.Unmarshal` of the fields of a JWK object into `rawJSONWebKey`. -/
def rawParse (fs : List (String × Json)) : Except String RawJWK :=
  match getStr? fs "kty" with
  | Except.error e => Except.error e
  | Except.ok kty =>
  match getStr? fs "kid" with
  | Except.error e => Except.error e
  | Except.ok kid =>
  match getStr? fs "crv" with
  | Except.error e => Except.error e
  | Except.ok crv =>
  match getBuf? fs "n" with
  | Except.error e => Except.error e
  | Except.ok n =>
  match getBuf? fs "e" with
  | Except.error e => Except.error e
  | Except.ok e =>
  match getBuf? fs "d" with
  | Except.error e => Except.error e
  | Except.ok d =>
  match getBuf? fs "k" with
  | Except.error e => Except.error e
  | Except.ok k =>
  match getBuf? fs "x" with
  | Except.error e => Except.error e
  | Except.ok x =>
  match getBuf? fs "y" with
  | Except.error e => Except.error e
  | Except.ok y =>
  match getBuf? fs "p" with
  | Except.error e => Except.error e
  | Except.ok p =>
  match getBuf? fs "q" with
  | Except.error e => Except.error e
  | Except.ok q =>
  Except.ok ⟨kty, kid, crv, n, e, d, k, x, y, p, q⟩

/-- The Go value `jose.JSONWebKey.Key` can hold after a successful
`UnmarshalJSON`, tagged by its dynamic Go type. -/
inductive GoKey where
  | rsaPub (n e : Nat)
  | rsaPriv (n e d : Nat)
  | ecPub (crv : Crv) (x y : List Nat)
  | ecPriv (crv : Crv) (x y d : List Nat)
  | edPub (x : List Nat)
  | edPriv (d x : List Nat)
  | symmetric (k : List Nat)
deriving DecidableEq

/-- `big.Int.SetBytes`: big-endian bytes to a natural number. -/
def bytesToNat (bs : List Nat) : Nat := bs.foldl (fun a b => a * 256 + b) 0

/-- go-jose `rawJSONWebKey.rsaPublicKey`: `n` and `e` must both be present. -/
def rsaPublicKey (n e : Option (List Nat)) : Except String GoKey :=
  match n, e with
  | some nb, some eb => Except.ok (GoKey.rsaPub (bytesToNat nb) (bytesToNat eb))
  | _, _ => Except.error "go-jose/go-jose: invalid RSA key, missing n/e values"

/-- go-jose `rawJSONWebKey.rsaPrivateKey`: `n`, `e`, `d`, `p`, `q` must all
be present.  The arithmetic validation of the factors that
`rsa.PrivateKey.Validate` would perform is not modelled. -/
def rsaPrivateKey (n e d p q : Option (List Nat)) : Except String GoKey :=
  match n, e, d, p, q with
  | some nb, some eb, some db, some _, some _ =>
    Except.ok (GoKey.rsaPriv (bytesToNat nb) (bytesToNat eb) (bytesToNat db))
  | _, _, _, _, _ => Except.error "go-jose/go-jose: invalid RSA private key, missing values"

/-- go-jose `rawJSONWebKey.ecPublicKey`: known curve, both coordinates
present with exactly the coordinate width of the curve.  The on-curve check of the point is
not modelled. -/
def ecPublicKey (crv : Option String) (x y : Option (List Nat)) : Except String GoKey :=
  match crvOf (crv.getD "") with
  | none => Except.error ("go-jose/go-jose: unsupported elliptic curve " ++ apos ++ crv.getD "" ++ apos)
  | some c =>
    match x, y with
    | some xb, some yb =>
      if xb.length = crvSize c ∧ yb.length = crvSize c then Except.ok (GoKey.ecPub c xb yb)
      else Except.error "go-jose/go-jose: invalid EC key, wrong length for x/y"
    | _, _ => Except.error "go-jose/go-jose: invalid EC key, missing x/y values"

/-- go-jose `rawJSONWebKey.ecPrivateKey`: like the public case plus a `d`
scalar of the same width. -/
def ecPrivateKey (crv : Option String) (x y : Option (List Nat)) (db : List Nat) : Except String GoKey :=
  match crvOf (crv.getD "") with
  | none => Except.error ("go-jose/go-jose: unsupported elliptic curve " ++ apos ++ crv.getD "" ++ apos)
  | some c =>
    match x, y with
    | some xb, some yb =>
      if xb.length = crvSize c ∧ yb.length = crvSize c ∧ db.length = crvSize c then
        Except.ok (GoKey.ecPriv c xb yb db)
      else Except.error "go-jose/go-jose: invalid EC private key, wrong length"
    | _, _ => Except.error "go-jose/go-jose: invalid EC private key, missing x/y values"

/-- go-jose `rawJSONWebKey.edPublicKey`: 32 key bytes in `x`. -/
def edPublicKey (xb : List Nat) : Except String GoKey :=
  if xb.length = 32 then Except.ok (GoKey.edPub xb)
  else Except.error "go-jose/go-jose: invalid Ed key, wrong length for x"

/-- go-jose `rawJSONWebKey.edPrivateKey`: 32 seed bytes in `d` and 32 public
bytes in `x`. -/
def edPrivateKey (db xb : List Nat) : Except String GoKey :=
  if db.length = 32 ∧ xb.length = 32 then Except.ok (GoKey.edPriv db xb)
  else Except.error "go-jose/go-jose: invalid Ed key, wrong length"

/-- The `switch raw.Kty` dispatch of the go-jose `JSONWebKey.UnmarshalJSON`:
`"EC"` and `"RSA"` pick the private variant when `d` is present, `"oct"`
requires `k`, `"OKP"` requires curve `Ed25519` with `x` present, and every
other key type (a missing `kty` included) is an unknown key type error. -/
def keyOfRaw (raw : RawJWK) : Except String GoKey :=
  match raw.kty.getD "" with
  | "EC" =>
    match raw.d with
    | some db => ecPrivateKey raw.crv raw.x raw.y db
    | none => ecPublicKey raw.crv raw.x raw.y
  | "RSA" =>
    match raw.d with
    | some _ => rsaPrivateKey raw.n raw.e raw.d raw.p raw.q
    | none => rsaPublicKey raw.n raw.e
  | "oct" =>
    match raw.k with
    | some kb => Except.ok (GoKey.symmetric kb)
    | none => Except.error "go-jose/go-jose: invalid OCT (symmetric) key, missing k value"
  | "OKP" =>
    match raw.crv, raw.x with
    | some "Ed25519", some xb =>
      match raw.d with
      | some db => edPrivateKey db xb
      | none => edPublicKey xb
    | _, _ => Except.error ("go-jose/go-jose: unknown curve " ++ raw.crv.getD "" ++ apos)
  | other => Except.error ("go-jose/go-jose: unknown json web key type " ++ apos ++ other ++ apos)

/-- The fields of `jose.JSONWebKey` the converter reads: the decoded key and
the key identifier (`""` when the JWK had no `kid`). -/
structure JoseJWK where
  key : GoKey
  keyID : String
deriving DecidableEq

/-- go-jose `JSONWebKey.UnmarshalJSON` on the fields of a JWK object. -/
def joseUnmarshalObj (fs : List (String × Json)) : Except String JoseJWK :=
  match rawParse fs with
  | Except.error e => Except.error e
  | Except.ok raw =>
    match keyOfRaw raw with
    | Except.error e => Except.error e
    | Except.ok key => Except.ok ⟨key, raw.kid.getD ""⟩

/-- go-jose `JSONWebKey.UnmarshalJSON` on a JWK text, given as its JSON
parse result: text that is not valid JSON fails, a JSON `null` leaves every
raw member at its zero value (and then fails the key type dispatch), any
other non-object JSON value is an unmarshal type error. -/
def joseUnmarshal : Option Json → Except String JoseJWK
  | none => Except.error "invalid character in JSON"
  | some (Json.obj fs) => joseUnmarshalObj fs
  | some Json.null => joseUnmarshalObj []
  | some _ => Except.error "json: cannot unmarshal value into Go value of type jose.rawJSONWebKey"

/-! ## `x509.MarshalPKIXPublicKey` -/

/-- The Go `%T` of the dynamic type `jose.JSONWebKey.Key` holds. -/
def goTypeName : GoKey → String
  | GoKey.rsaPub .. => "*rsa.PublicKey"
  | GoKey.rsaPriv .. => "*rsa.PrivateKey"
  | GoKey.ecPub .. => "*ecdsa.PublicKey"
  | GoKey.ecPriv .. => "*ecdsa.PrivateKey"
  | GoKey.edPub _ => "ed25519.PublicKey"
  | GoKey.edPriv .. => "ed25519.PrivateKey"
  | GoKey.symmetric _ => "[]uint8"

/-- `x509.MarshalPKIXPublicKey`: supports `*rsa.PublicKey`,
`*ecdsa.PublicKey` and `ed25519.PublicKey` and fails on every other dynamic
type — in particular on every private-key type and on the `[]byte` of a
symmetric JWK. -/
def marshalPKIXPublicKey : GoKey → Except String (List Nat)
  | GoKey.rsaPub n e => Except.ok (spkiRSA n e)
  | GoKey.ecPub c x y => Except.ok (spkiEC c x y)
  | GoKey.edPub x => Except.ok (spkiEd x)
  | k => Except.error ("x509: unsupported public key type: " ++ goTypeName k)

/-- Key values whose public projection `x509.MarshalPKIXPublicKey` cannot
compute: symmetric keys and private keys. -/
def isSymOrPriv : GoKey → Bool
  | GoKey.rsaPriv .. => true
  | GoKey.ecPriv .. => true
  | GoKey.edPriv .. => true
  | GoKey.symmetric _ => true
  | _ => false

/-! ## The converter `Read`s -/

/-- One terraform diagnostic: `resp.Diagnostics.AddError(summary, detail)`. -/
structure Diag where
  summary : String
  detail : String
deriving DecidableEq

/-- The state `JwkToPemDataSource.Read` sets: `id` and `pem`. -/
structure ConvState where
  id : String
  pem : String
deriving DecidableEq

/-- Outcome of one framework converter `Read` call: the diagnostics added and
the state set (`none` when the call returned before `resp.State.Set`). -/
structure ConvResult where
  diags : List Diag
  state : Option ConvState
deriving DecidableEq

/-- `JwkToPemDataSource.Read` (framework converter), after a successful
config fetch, on the JWK input text given as its JSON parse result.  The
`pem.Encode` error branch of the source is unreachable (writes to a
`bytes.Buffer` cannot fail) and is not modelled. -/
def jwkToPemRead (jwk : Option Json) : ConvResult :=
  match joseUnmarshal jwk with
  | Except.error e => ⟨[⟨"UnmarshalJSON", "Can" ++ apos ++ "t unmarshal JWK : " ++ e⟩], none⟩
  | Except.ok key =>
    match marshalPKIXPublicKey key.key with
    | Except.error e => ⟨[⟨"MarshalPKIXPublicKey", "Fail to marshal key: " ++ e⟩], none⟩
    | Except.ok der =>
      ⟨[], some ⟨key.keyID, strTrimSpace (pemEncode "PUBLIC KEY" der)⟩⟩

/-- The state the legacy SDK data source sets: the resource id (`SetId`) and
the `pem` attribute. -/
structure LegacyState where
  id : String
  pem : String
deriving DecidableEq

/-- Outcome of one legacy `datasourceJwkToPemRead` call: returned
diagnostics (`diag.FromErr` carries just the error text) and the state set. -/
structure LegacyResult where
  diags : List String
  state : Option LegacyState
deriving DecidableEq

/-- `datasourceJwkToPemRead` (legacy SDK converter): same pipeline, but the
`pem` attribute keeps the trailing newline `pem.Encode` emitted — there is
no `strings.TrimSpace`.  The `d.Set` error branch is unreachable for a
string attribute and is not modelled. -/
def datasourceJwkToPemRead (jwk : Option Json) : LegacyResult :=
  match joseUnmarshal jwk with
  | Except.error e => ⟨[e], none⟩
  | Except.ok key =>
    match marshalPKIXPublicKey key.key with
    | Except.error e => ⟨[e], none⟩
    | Except.ok der => ⟨[], some ⟨key.keyID, pemEncode "PUBLIC KEY" der⟩⟩

/-! ## The fetcher `Read` -/

/-- `JwksResp`: the unmarshal target `struct { Keys []json.RawMessage }`.
`json.Unmarshal` of a JSON object that merely lacks `keys` succeeds and
leaves `Keys` nil; only non-JSON bodies, bodies that are not a JSON
object (or `null`), or a `keys` member that is neither an array nor `null`
fail.  A repeated `keys` member overwrites, the last well-typed occurrence
winning; `null` resets the slice to nil. -/
def keysFold (acc : Option (List Json)) : List (String × Json) → Except String (Option (List Json))
  | [] => Except.ok acc
  | (k, v) :: rest =>
    if k = "keys" then
      match v with
      | Json.arr es => keysFold (some es) rest
      | Json.null => keysFold none rest
      | _ => Except.error "json: cannot unmarshal value into Go struct field JwksResp.keys"
    else keysFold acc rest

/-- `json.Unmarshal(body, &jwksResp)` on the JSON parse result of the body,
returning the `Keys` slice (nil and empty both as `[]`). -/
def unmarshalJwksResp : Option Json → Except String (List Json)
  | none => Except.error "invalid character in JSON"
  | some (Json.obj fs) =>
    match keysFold none fs with
    | Except.error e => Except.error e
    | Except.ok acc => Except.ok (acc.getD [])
  | some Json.null => Except.ok []
  | some _ => Except.error "json: cannot unmarshal value into Go value of type provider.JwksResp"

/-- Outcome of the one HTTP round trip of a fetcher call: `client.Get`
failing, `io.ReadAll` of the body failing, or a full body delivered (given
as its JSON parse result, `none` for a body that is not valid JSON). -/
inductive HttpOutcome where
  | getFail (msg : String)
  | readFail (msg : String)
  | body (parsed : Option Json)

/-- The four configuration strings of `JwkFromK8sDataSourceModel`. -/
structure FetchInputs where
  clientCert : String
  clientKey : String
  caCert : String
  host : String

/-- Behaviour of the external world during one fetcher call:
`keyPairErr` is the error of `tls.X509KeyPair(clientCert, clientKey)`
(`none` on success), `caOk` the boolean `x509.CertPool.AppendCertsFromPEM`
returns (`false` exactly when no valid certificate could be parsed out of
the CA PEM), and `http` the outcome of a GET against a URL. -/
structure FetchEnv where
  keyPairErr : Option String
  caOk : Bool
  http : String → HttpOutcome

/-- The state `JwkFromK8sDataSource.Read` sets: `id` and the `jwks` list. -/
structure FetchState where
  id : String
  jwks : List String
deriving DecidableEq

/-- Outcome of one fetcher `Read` call; `requestedURL` records the URL of
the `client.Get`, `none` when the call returned before any request. -/
structure FetchResult where
  diags : List Diag
  state : Option FetchState
  requestedURL : Option String
deriving DecidableEq

/-- `JwkFromK8sDataSource.Read`, after a successful config fetch.  The
per-element `json.Marshal` error branch of the source is unreachable (a
`json.RawMessage` taken from a successful `Unmarshal` is valid JSON) and is
not modelled; `types.ListValue` over string elements cannot fail and its
ignored diagnostic is not modelled. -/
def fetchRead (inp : FetchInputs) (env : FetchEnv) : FetchResult :=
  match env.keyPairErr with
  | some e => ⟨[⟨"X509KeyPair", "Can" ++ apos ++ "t create X509: " ++ e⟩], none, none⟩
  | none =>
    if env.caOk = false then
      ⟨[⟨"AppendCertsFromPEM", "Can" ++ apos ++ "t load cluster CA"⟩], none, none⟩
    else
      let host := trimRightSlash inp.host
      let url := host ++ "/openid/v1/jwks"
      match env.http url with
      | HttpOutcome.getFail e => ⟨[⟨"Get", "Fail to query K8S cluster : " ++ e⟩], none, some url⟩
      | HttpOutcome.readFail e => ⟨[⟨"ReadAll", "Fail to read resp : " ++ e⟩], none, some url⟩
      | HttpOutcome.body parsed =>
        match unmarshalJwksResp parsed with
        | Except.error e => ⟨[⟨"Unmarshal", "Can" ++ apos ++ "t unmarshal JwksResp : " ++ e⟩], none, some url⟩
        | Except.ok keys => ⟨[], some ⟨host, keys.map Json.compact⟩, some url⟩

/-! ## Helper lemmas about trimming a PEM block -/

lemma dropWhile_dash (t : List Char) :
    List.dropWhile isSpaceChar ('-' :: t) = '-' :: t := by
  simp [List.dropWhile, isSpaceChar]

lemma dropWhile_nl_dash (t : List Char) :
    List.dropWhile isSpaceChar ('\n' :: '-' :: t) = '-' :: t := by
  simp [List.dropWhile, isSpaceChar]

/-- Trimming a text that starts with a dash and ends with a dash followed by
one newline removes exactly that final newline. -/
lemma trim_shape (a b mid : List Char) :
    trimChars (('-' :: a) ++ (mid ++ (b ++ ['-', '\n']))) = ('-' :: a) ++ (mid ++ (b ++ ['-'])) := by
  unfold trimChars
  rw [show (('-' :: a) ++ (mid ++ (b ++ ['-', '\n']))) = '-' :: (a ++ (mid ++ (b ++ ['-', '\n']))) by simp]
  rw [dropWhile_dash]
  rw [show ('-' :: (a ++ (mid ++ (b ++ ['-', '\n'])))).reverse
      = '\n' :: '-' :: (b.reverse ++ (mid.reverse ++ (a.reverse ++ ['-']))) by simp]
  rw [dropWhile_nl_dash]
  simp

/-- The begin-marker line of a `PUBLIC KEY` block without its first dash. -/
def pubBeginRest : List Char := "----BEGIN PUBLIC KEY-----\n".data

/-- The end-marker line of a `PUBLIC KEY` block without its final dash and
newline. -/
def pubEndInit : List Char := "-----END PUBLIC KEY----".data

lemma pem_public_shape (der : List Nat) :
    pemEncodeChars "PUBLIC KEY" der
      = ('-' :: pubBeginRest) ++ (pemLines (base64Chars der) ++ (pubEndInit ++ ['-', '\n'])) := rfl

lemma pem_trim_public (der : List Nat) :
    (strTrimSpace (pemEncode "PUBLIC KEY" der)).data
      = ('-' :: pubBeginRest) ++ (pemLines (base64Chars der) ++ (pubEndInit ++ ['-'])) := by
  show trimChars (pemEncodeChars "PUBLIC KEY" der) = _
  rw [pem_public_shape]
  exact trim_shape pubBeginRest pubEndInit (pemLines (base64Chars der))

/-- `p` is a leading segment of `s`. -/
def strBegins (p s : String) : Prop := ∃ t, s.data = p.data ++ t

/-- `p` is a trailing segment of `s`. -/
def strEnds (p s : String) : Prop := ∃ t, s.data = t ++ p.data

/-! ## Concrete example inputs -/

/-- Parse tree of the JWK text of a symmetric key with key bytes `AQAB`. -/
def jOct : Json := Json.obj [("kty", Json.str "oct"), ("k", Json.str "AQAB")]

/-- Fields of a small RSA public JWK with `kid` present. -/
def jRsaFields : List (String × Json) :=
  [("kty", Json.str "RSA"), ("n", Json.str "AQAB"), ("e", Json.str "AQAB"),
    ("kid", Json.str "test-1")]

/-- Parse tree of a small RSA public JWK with `kid` present. -/
def jRsa : Json := Json.obj jRsaFields

/-- Fields of the same RSA public JWK without `kid`. -/
def jRsaNoKidFields : List (String × Json) :=
  [("kty", Json.str "RSA"), ("n", Json.str "AQAB"), ("e", Json.str "AQAB")]

/-- Parse tree of the same RSA public JWK without `kid`. -/
def jRsaNoKid : Json := Json.obj jRsaNoKidFields

/-- The PEM text the framework converter produces for `jRsa` (trailing
newline trimmed). -/
def pemRsaFramework : String :=
  "-----BEGIN PUBLIC KEY-----\nMB4wDQYJKoZIhvcNAQEBBQADDQAwCgIDAQABAgMBAAE=\n-----END PUBLIC KEY-----"

/-- The PEM text the legacy converter produces for `jRsa`: the raw
`pem.Encode` output, trailing newline kept. -/
def pemRsaLegacy : String :=
  "-----BEGIN PUBLIC KEY-----\nMB4wDQYJKoZIhvcNAQEBBQADDQAwCgIDAQABAgMBAAE=\n-----END PUBLIC KEY-----\n"

/-- Fetcher inputs with a trailing slash on the host. -/
def inpSlash : FetchInputs := ⟨"certpem", "keypem", "capem", "https://host:6443/"⟩

/-- Fetcher inputs without a trailing slash on the host. -/
def inpNoSlash : FetchInputs := ⟨"certpem", "keypem", "capem", "https://host:6443"⟩

/-- A well-behaved environment serving an empty JWKS. -/
def envEmptyKeys : FetchEnv :=
  ⟨none, true, fun _ => HttpOutcome.body (some (Json.obj [("keys", Json.arr [])]))⟩

/-- An environment serving a valid JSON body that lacks the `keys` field. -/
def envNotKeys : FetchEnv :=
  ⟨none, true, fun _ => HttpOutcome.body (some (Json.obj [("notkeys", Json.arr [])]))⟩

/-- An environment whose CA PEM contains no parseable certificate. -/
def envBadCA : FetchEnv :=
  ⟨none, false, fun _ => HttpOutcome.body (some (Json.obj [("keys", Json.arr [])]))⟩

/-- An environment serving a one-element JWKS. -/
def envOneKey : FetchEnv :=
  ⟨none, true, fun _ => HttpOutcome.body (some (Json.obj
    [("keys", Json.arr [Json.obj [("kid", Json.str "a"), ("kty", Json.str "RSA")]])]))⟩

/-! ## Claim C1 -/

/-- Claim C1, counterexample: on the symmetric JWK text of kty `oct`, the
go-jose decode step SUCCEEDS (producing a `[]byte` key and an empty key id),
and the rejection the converter produces is the encode-time
`MarshalPKIXPublicKey` diagnostic, not a decode-time `UnmarshalJSON` one.
No PEM is produced (the state stays unset), as the claim also says. -/
theorem c1_decode_time_rejection_false :
    joseUnmarshal (some jOct) = Except.ok ⟨GoKey.symmetric [1, 0, 1], ""⟩ ∧
      (jwkToPemRead (some jOct)).diags =
        [⟨"MarshalPKIXPublicKey",
          "Fail to marshal key: x509: unsupported public key type: []uint8"⟩] ∧
      (jwkToPemRead (some jOct)).state = none := by
  refine ⟨rfl, by decide, by decide⟩

/-- Claim C1, amended: every JWK that go-jose decodes to a symmetric or
private key is rejected by the converter with the encode-time
`MarshalPKIXPublicKey` diagnostic (not a decode-time one, and no crash), and
no PEM output is produced. -/
theorem c1_amended_encode_time_rejection (j : Option Json) (jwk : JoseJWK)
    (hdec : joseUnmarshal j = Except.ok jwk) (hk : isSymOrPriv jwk.key = true) :
    jwkToPemRead j =
      ⟨[⟨"MarshalPKIXPublicKey",
        "Fail to marshal key: x509: unsupported public key type: " ++ goTypeName jwk.key⟩],
        none⟩ := by
  unfold jwkToPemRead
  rw [hdec]
  cases h : jwk.key <;> rw [h] at hk <;> simp [isSymOrPriv] at hk <;>
    simp [marshalPKIXPublicKey, h, goTypeName]

/-- Claim C1, witness: the amended theorem applied to the symmetric JWK. -/
theorem c1_amended_encode_time_rejection_witness :
    jwkToPemRead (some jOct) =
      ⟨[⟨"MarshalPKIXPublicKey",
        "Fail to marshal key: x509: unsupported public key type: []uint8"⟩], none⟩ := by
  have h := c1_amended_encode_time_rejection (some jOct)
    ⟨GoKey.symmetric [1, 0, 1], ""⟩ rfl (by decide)
  exact h

/-! ## Claim C2 -/

/-- A field list with no `keys` member leaves the `Keys` slice at nil. -/
lemma keysFold_no_keys (fs : List (String × Json)) (acc : Option (List Json))
    (h : ∀ kv ∈ fs, kv.1 ≠ "keys") : keysFold acc fs = Except.ok acc := by
  induction fs generalizing acc with
  | nil => rfl
  | cons kv rest ih =>
    obtain ⟨k, v⟩ := kv
    unfold keysFold
    rw [if_neg (h (k, v) (by simp))]
    exact ih acc (fun kv2 hm => h kv2 (by simp [hm]))

/-- Claim C2, counterexample: a well-behaved environment serving the valid
JSON body with `notkeys` instead of `keys` makes the fetcher SUCCEED with an
empty `jwks` list and no diagnostics, rather than fail with an envelope
error. -/
theorem c2_envelope_error_false :
    fetchRead inpNoSlash envNotKeys =
      ⟨[], some ⟨"https://host:6443", []⟩, some "https://host:6443/openid/v1/jwks"⟩ := by
  decide

/-- Claim C2, amended: a response body that is a valid JSON object without
any `keys` field makes the fetcher succeed with an empty `jwks` sequence
(`json.Unmarshal` leaves the missing slice nil); only a body that is not
valid JSON, not a JSON object or `null`, or whose `keys` member is neither
an array nor `null`, fails with the `Unmarshal` (envelope) diagnostic. -/
theorem c2_amended_missing_keys_succeeds (inp : FetchInputs) (env : FetchEnv)
    (fs : List (String × Json))
    (h1 : env.keyPairErr = none) (h2 : env.caOk = true)
    (h3 : env.http (trimRightSlash inp.host ++ "/openid/v1/jwks")
      = HttpOutcome.body (some (Json.obj fs)))
    (h4 : ∀ kv ∈ fs, kv.1 ≠ "keys") :
    fetchRead inp env =
      ⟨[], some ⟨trimRightSlash inp.host, []⟩,
        some (trimRightSlash inp.host ++ "/openid/v1/jwks")⟩ := by
  have hk : keysFold none fs = Except.ok none := keysFold_no_keys fs none h4
  unfold fetchRead
  rw [h1]
  simp [h2, h3, unmarshalJwksResp, hk]

/-- Claim C2, witness: the amended theorem applied to the `notkeys` body. -/
theorem c2_amended_missing_keys_succeeds_witness :
    fetchRead inpNoSlash envNotKeys =
      ⟨[], some ⟨trimRightSlash "https://host:6443", []⟩,
        some (trimRightSlash "https://host:6443" ++ "/openid/v1/jwks")⟩ := by
  exact c2_amended_missing_keys_succeeds inpNoSlash envNotKeys
    [("notkeys", Json.arr [])] rfl rfl rfl (by decide)

/-! ## Claim C3 -/

/-- Claim C3: whenever the client identity and the CA pool are accepted, the
fetcher issues its one GET against the host with every trailing slash
stripped and the fixed discovery path appended, and on success the stripped
host is the result identity. -/
theorem c3_host_normalization (inp : FetchInputs) (env : FetchEnv)
    (h1 : env.keyPairErr = none) (h2 : env.caOk = true) :
    (fetchRead inp env).requestedURL = some (trimRightSlash inp.host ++ "/openid/v1/jwks") ∧
      ∀ st, (fetchRead inp env).state = some st → st.id = trimRightSlash inp.host := by
  unfold fetchRead
  rw [h1]
  simp only [h2]
  cases hh : env.http (trimRightSlash inp.host ++ "/openid/v1/jwks") with
  | getFail e => simp
  | readFail e => simp
  | body parsed =>
    cases hu : unmarshalJwksResp parsed with
    | error e => simp [hu]
    | ok keys =>
      simp [hu]

/-- Claim C3, witness: the hosts with and without trailing slash yield the
same request URL, and the success identity is the stripped host. -/
theorem c3_host_normalization_witness :
    (fetchRead inpSlash envEmptyKeys).requestedURL = some "https://host:6443/openid/v1/jwks" ∧
      (fetchRead inpNoSlash envEmptyKeys).requestedURL = some "https://host:6443/openid/v1/jwks" ∧
      (fetchRead inpSlash envEmptyKeys).state = some ⟨"https://host:6443", []⟩ := by
  refine ⟨?_, ?_, by decide⟩
  · have h := (c3_host_normalization inpSlash envEmptyKeys rfl rfl).1
    rw [h]
    decide
  · have h := (c3_host_normalization inpNoSlash envEmptyKeys rfl rfl).1
    rw [h]
    decide

/-! ## Claim C4 -/

/-- Inversion: a raw JWK parse that succeeds took its `kid` member from
`getStr?` on the field list. -/
lemma rawParse_kid (fs : List (String × Json)) (raw : RawJWK)
    (h : rawParse fs = Except.ok raw) : getStr? fs "kid" = Except.ok raw.kid := by
  unfold rawParse at h
  repeat' split at h
  any_goals exact Except.noConfusion h
  injection h with h
  subst h
  simp_all

/-- Inversion: a successful go-jose unmarshal of a JWK object carries in
`keyID` the `kid` string of the object, or `""` when `kid` is absent. -/
lemma joseUnmarshalObj_kid (fs : List (String × Json)) (jwk : JoseJWK)
    (h : joseUnmarshalObj fs = Except.ok jwk) :
    getStr? fs "kid" = Except.ok (some jwk.keyID) ∨
      (getStr? fs "kid" = Except.ok none ∧ jwk.keyID = "") := by
  unfold joseUnmarshalObj at h
  cases hr : rawParse fs with
  | error e => rw [hr] at h; exact Except.noConfusion h
  | ok raw =>
    rw [hr] at h
    dsimp only at h
    cases hko : keyOfRaw raw with
    | error e => rw [hko] at h; exact Except.noConfusion h
    | ok key =>
      rw [hko] at h
      dsimp only at h
      have hk := rawParse_kid fs raw hr
      injection h with h
      subst h
      cases hkid : raw.kid with
      | none =>
        right
        rw [hk, hkid]
        simp [hkid]
      | some s =>
        left
        rw [hk, hkid]
        simp [hkid]

/-- Claim C4: a successful conversion returns as identity exactly the `kid`
string of the input JWK when one is present, and the empty string when the
JWK has no `kid`; nothing is ever synthesized. -/
theorem c4_kid_passthrough (fs : List (String × Json)) (st : ConvState)
    (h : (jwkToPemRead (some (Json.obj fs))).state = some st) :
    (∀ s, lookupLast "kid" fs = some (Json.str s) → st.id = s) ∧
      (lookupLast "kid" fs = none → st.id = "") := by
  unfold jwkToPemRead at h
  simp only [joseUnmarshal] at h
  cases hj : joseUnmarshalObj fs with
  | error e => rw [hj] at h; simp at h
  | ok jwk =>
    rw [hj] at h
    dsimp only at h
    cases hm : marshalPKIXPublicKey jwk.key with
    | error e => rw [hm] at h; simp at h
    | ok der =>
      rw [hm] at h
      dsimp only at h
      simp only [Option.some.injEq] at h
      have hid : st.id = jwk.keyID := by rw [← h]
      have hkid := joseUnmarshalObj_kid fs jwk hj
      constructor
      · intro s hs
        have hg : getStr? fs "kid" = Except.ok (some s) := by
          simp [getStr?, hs]
        cases hkid with
        | inl h1 =>
          rw [hg] at h1
          injection h1 with h1
          injection h1 with h1
          rw [hid, ← h1]
        | inr h2 =>
          rw [hg] at h2
          exact absurd h2.1 (by simp)
      · intro hs
        have hg : getStr? fs "kid" = Except.ok none := by
          simp [getStr?, hs]
        cases hkid with
        | inl h1 =>
          rw [hg] at h1
          injection h1 with h1
          exact absurd h1 (by simp)
        | inr h2 =>
          rw [hid, h2.2]

/-- Claim C4, witness: the theorem applied to the small RSA JWK with
`kid = "test-1"` and to the same JWK without `kid`. -/
theorem c4_kid_passthrough_witness :
    ((jwkToPemRead (some (Json.obj jRsaFields))).state = some ⟨"test-1", pemRsaFramework⟩ ∧
      (⟨"test-1", pemRsaFramework⟩ : ConvState).id = "test-1") ∧
    ((jwkToPemRead (some (Json.obj jRsaNoKidFields))).state = some ⟨"", pemRsaFramework⟩ ∧
      (⟨"", pemRsaFramework⟩ : ConvState).id = "") :=
  ⟨⟨by decide, (c4_kid_passthrough jRsaFields ⟨"test-1", pemRsaFramework⟩
      (by decide)).1 "test-1" rfl⟩,
    ⟨by decide, (c4_kid_passthrough jRsaNoKidFields ⟨"", pemRsaFramework⟩
      (by decide)).2 rfl⟩⟩

/-! ## Claim C5 -/

/-- Claim C5: every successful conversion returns a PEM text that is exactly
the whitespace-trim of the `pem.Encode` output for the type label
`PUBLIC KEY` on the PKIX DER of the decoded key; it begins with the
`-----BEGIN PUBLIC KEY-----` marker and ends with the
`-----END PUBLIC KEY-----` marker (hence with a dash — no trailing
newline). -/
theorem c5_pem_shape (j : Option Json) (st : ConvState)
    (h : (jwkToPemRead j).state = some st) :
    ∃ jwk der, joseUnmarshal j = Except.ok jwk ∧
      marshalPKIXPublicKey jwk.key = Except.ok der ∧
      st.pem = strTrimSpace (pemEncode "PUBLIC KEY" der) ∧
      strBegins "-----BEGIN PUBLIC KEY-----" st.pem ∧
      strEnds "-----END PUBLIC KEY-----" st.pem := by
  unfold jwkToPemRead at h
  cases hj : joseUnmarshal j with
  | error e => rw [hj] at h; simp at h
  | ok jwk =>
    rw [hj] at h
    dsimp only at h
    cases hm : marshalPKIXPublicKey jwk.key with
    | error e => rw [hm] at h; simp at h
    | ok der =>
      rw [hm] at h
      dsimp only at h
      simp only [Option.some.injEq] at h
      subst h
      refine ⟨jwk, der, rfl, hm, rfl, ?_, ?_⟩
      · refine ⟨'\n' :: (pemLines (base64Chars der) ++ (pubEndInit ++ ['-'])), ?_⟩
        rw [pem_trim_public]
        rfl
      · refine ⟨('-' :: pubBeginRest) ++ pemLines (base64Chars der), ?_⟩
        rw [pem_trim_public, List.append_assoc]
        rfl

/-- Claim C5, witness: the theorem applied to the small RSA JWK; the decoded
key, DER bytes and trimmed PEM text are spelled out. -/
theorem c5_pem_shape_witness :
    ∃ jwk der, joseUnmarshal (some jRsa) = Except.ok jwk ∧
      marshalPKIXPublicKey jwk.key = Except.ok der ∧
      (⟨"test-1", pemRsaFramework⟩ : ConvState).pem
        = strTrimSpace (pemEncode "PUBLIC KEY" der) ∧
      strBegins "-----BEGIN PUBLIC KEY-----" (⟨"test-1", pemRsaFramework⟩ : ConvState).pem ∧
      strEnds "-----END PUBLIC KEY-----" (⟨"test-1", pemRsaFramework⟩ : ConvState).pem :=
  c5_pem_shape (some jRsa) ⟨"test-1", pemRsaFramework⟩ (by decide)

/-! ## Claim C6 -/

/-- Claim C6: when the body parses into a `keys` list, each element of the
output sequence is the independent compact re-serialization of the
corresponding source element (a serialization that keeps field order and
values of the tree exactly), and the output order matches the source
order position by position. -/
theorem c6_fragment_fidelity (inp : FetchInputs) (env : FetchEnv) (parsed : Option Json)
    (keys : List Json) (st : FetchState)
    (h1 : env.keyPairErr = none) (h2 : env.caOk = true)
    (h3 : env.http (trimRightSlash inp.host ++ "/openid/v1/jwks") = HttpOutcome.body parsed)
    (h4 : unmarshalJwksResp parsed = Except.ok keys)
    (h5 : (fetchRead inp env).state = some st) :
    st.jwks = keys.map Json.compact ∧
      ∀ i : Nat, st.jwks[i]? = (keys[i]?).map Json.compact := by
  unfold fetchRead at h5
  rw [h1] at h5
  simp only [h2] at h5
  rw [h3] at h5
  dsimp only at h5
  rw [h4] at h5
  dsimp only at h5
  have h6 := Option.some.inj h5
  subst h6
  refine ⟨rfl, fun i => ?_⟩
  exact List.getElem?_map Json.compact keys i

/-- Claim C6, witness: the theorem applied to the one-element JWKS of the
spec; the fragment keeps the field order `kid`, `kty`. -/
theorem c6_fragment_fidelity_witness :
    (⟨"https://host:6443", ["\x7b\"kid\":\"a\",\"kty\":\"RSA\"\x7d"]⟩ : FetchState).jwks
        = [Json.obj [("kid", Json.str "a"), ("kty", Json.str "RSA")]].map Json.compact ∧
      ∀ i : Nat, (⟨"https://host:6443", ["\x7b\"kid\":\"a\",\"kty\":\"RSA\"\x7d"]⟩ : FetchState).jwks[i]?
        = ([Json.obj [("kid", Json.str "a"), ("kty", Json.str "RSA")]][i]?).map Json.compact :=
  c6_fragment_fidelity inpNoSlash envOneKey
    (some (Json.obj [("keys", Json.arr [Json.obj [("kid", Json.str "a"), ("kty", Json.str "RSA")]])]))
    [Json.obj [("kid", Json.str "a"), ("kty", Json.str "RSA")]]
    ⟨"https://host:6443", ["\x7b\"kid\":\"a\",\"kty\":\"RSA\"\x7d"]⟩
    rfl rfl rfl rfl (by decide)

/-! ## Claim C7 -/

/-- Claim C7: a response body `keys : []` (the empty JWKS) yields a
successful read with an empty output sequence and no diagnostics. -/
theorem c7_empty_jwks (inp : FetchInputs) (env : FetchEnv)
    (h1 : env.keyPairErr = none) (h2 : env.caOk = true)
    (h3 : env.http (trimRightSlash inp.host ++ "/openid/v1/jwks")
      = HttpOutcome.body (some (Json.obj [("keys", Json.arr [])]))) :
    fetchRead inp env =
      ⟨[], some ⟨trimRightSlash inp.host, []⟩,
        some (trimRightSlash inp.host ++ "/openid/v1/jwks")⟩ := by
  unfold fetchRead
  rw [h1]
  simp [h2, h3, unmarshalJwksResp, keysFold]

/-- Claim C7, witness: the theorem applied to the empty-JWKS environment. -/
theorem c7_empty_jwks_witness :
    fetchRead inpNoSlash envEmptyKeys =
      ⟨[], some ⟨trimRightSlash "https://host:6443", []⟩,
        some (trimRightSlash "https://host:6443" ++ "/openid/v1/jwks")⟩ :=
  c7_empty_jwks inpNoSlash envEmptyKeys rfl rfl rfl

/-! ## Claim C8 -/

/-- Claim C8: when `AppendCertsFromPEM` finds no usable certificate in the
CA PEM (it returns `false`), the fetcher issues no network request and sets
no state; and provided the client pair itself was accepted, the one
diagnostic is the `AppendCertsFromPEM` (trust store) error. -/
theorem c8_bad_ca (inp : FetchInputs) (env : FetchEnv) (h : env.caOk = false) :
    (fetchRead inp env).requestedURL = none ∧
      (fetchRead inp env).state = none ∧
      (env.keyPairErr = none →
        (fetchRead inp env).diags =
          [⟨"AppendCertsFromPEM", "Can" ++ apos ++ "t load cluster CA"⟩]) := by
  unfold fetchRead
  cases hk : env.keyPairErr with
  | some e => simp
  | none => simp [h]

/-- Claim C8, witness: the theorem applied to the bad-CA environment. -/
theorem c8_bad_ca_witness :
    (fetchRead inpNoSlash envBadCA).requestedURL = none ∧
      (fetchRead inpNoSlash envBadCA).state = none ∧
      (envBadCA.keyPairErr = none →
        (fetchRead inpNoSlash envBadCA).diags =
          [⟨"AppendCertsFromPEM", "Can" ++ apos ++ "t load cluster CA"⟩]) :=
  c8_bad_ca inpNoSlash envBadCA rfl

/-! ## Claim C9 -/

/-- Claim C9: on every input and environment, each `Read` either succeeds
with no diagnostics and a state set, or fails with diagnostics and no state:
the converter never sets a PEM (or any state) alongside an error and the
fetcher never sets a partial `jwks` list (or any state) alongside an
error. -/
theorem c9_no_partial_results :
    (∀ j : Option Json,
      ((jwkToPemRead j).diags = [] ∧ (jwkToPemRead j).state.isSome = true) ∨
        ((jwkToPemRead j).diags ≠ [] ∧ (jwkToPemRead j).state = none)) ∧
    (∀ (inp : FetchInputs) (env : FetchEnv),
      ((fetchRead inp env).diags = [] ∧ (fetchRead inp env).state.isSome = true) ∨
        ((fetchRead inp env).diags ≠ [] ∧ (fetchRead inp env).state = none)) := by
  constructor
  · intro j
    unfold jwkToPemRead
    cases hj : joseUnmarshal j with
    | error e => simp [hj]
    | ok jwk =>
      cases hm : marshalPKIXPublicKey jwk.key with
      | error e => simp [hj, hm]
      | ok der => simp [hj, hm]
  · intro inp env
    unfold fetchRead
    cases hk : env.keyPairErr with
    | some e => simp [hk]
    | none =>
      cases hca : env.caOk with
      | false => simp [hk, hca]
      | true =>
        simp only [hk, hca]
        cases hh : env.http (trimRightSlash inp.host ++ "/openid/v1/jwks") with
        | getFail e => simp [hh]
        | readFail e => simp [hh]
        | body parsed =>
          cases hu : unmarshalJwksResp parsed with
          | error e => simp [hh, hu]
          | ok keys => simp [hh, hu]

/-- Claim C9, witness: both halves of the theorem applied to concrete
failing calls, resolved to the concrete no-state facts. -/
theorem c9_no_partial_results_witness :
    (jwkToPemRead (some jOct)).state = none ∧ (fetchRead inpNoSlash envBadCA).state = none := by
  constructor
  · cases c9_no_partial_results.1 (some jOct) with
    | inl h => exact absurd h.1 (by decide)
    | inr h => exact h.2
  · cases c9_no_partial_results.2 inpNoSlash envBadCA with
    | inl h => exact absurd h.1 (by decide)
    | inr h => exact h.2

/-! ## Claim C10 -/

/-- Claim C10: on every JWK input, the legacy SDK converter and the
framework converter succeed or fail together, agree on the key identifier,
and the framework PEM equals the whitespace-trim of the legacy PEM (the
legacy data source keeps the trailing newline of `pem.Encode`). -/
theorem c10_legacy_framework_refinement (j : Option Json) :
    ((jwkToPemRead j).diags = [] ↔ (datasourceJwkToPemRead j).diags = []) ∧
      ((jwkToPemRead j).state.isSome = (datasourceJwkToPemRead j).state.isSome) ∧
      (∀ s t, (jwkToPemRead j).state = some s → (datasourceJwkToPemRead j).state = some t →
        s.id = t.id ∧ s.pem = strTrimSpace t.pem) := by
  unfold jwkToPemRead datasourceJwkToPemRead
  cases hj : joseUnmarshal j with
  | error e => simp [hj]
  | ok jwk =>
    cases hm : marshalPKIXPublicKey jwk.key with
    | error e => simp [hj, hm]
    | ok der =>
      simp only [hj, hm]
      refine ⟨by simp, by simp, fun s t hs ht => ?_⟩
      have hs2 := Option.some.inj hs
      have ht2 := Option.some.inj ht
      subst hs2
      subst ht2
      exact ⟨rfl, rfl⟩

/-- Claim C10, witness: the refinement applied to the small RSA JWK; the two
concrete states agree on the id and differ only by the trailing newline. -/
theorem c10_legacy_framework_refinement_witness :
    (⟨"test-1", pemRsaFramework⟩ : ConvState).id = (⟨"test-1", pemRsaLegacy⟩ : LegacyState).id ∧
      (⟨"test-1", pemRsaFramework⟩ : ConvState).pem
        = strTrimSpace (⟨"test-1", pemRsaLegacy⟩ : LegacyState).pem :=
  (c10_legacy_framework_refinement (some jRsa)).2.2
    ⟨"test-1", pemRsaFramework⟩ ⟨"test-1", pemRsaLegacy⟩ (by decide) (by decide)
